import Mathlib

/-!
Verification of the incremental Wikipedia ingestion pipeline
(`src/pipeline/wikipedia_pipeline_simple_incremental.py`,
`src/pipeline/wikipedia_pipeline_incremental.py`,
`src/pipeline/clickhouse_utils.py`) against its design specification.

The Python code is shallowly embedded: pure functions become Lean functions,
the DuckDB tracking table becomes an explicit list of records with
insert-or-replace-by-primary-key semantics, and the external ClickHouse
engine becomes an opaque behaviour parameter.  Exceptions become `Except`.
-/

namespace Wiki

/-- Python's f-string formatting `f"{n:02d}"`: a non-negative integer below 10
is left-padded with one zero; every other integer (including negatives, which
Python renders with their sign and no extra padding at width 2) prints as its
plain decimal string. -/
def pad2 (n : Int) : String :=
  if 0 ≤ n ∧ n < 10 then "0" ++ toString n else toString n

/-- Embeds `generate_date_patterns` (identical in
`wikipedia_pipeline_simple_incremental.py` lines 78-87 and
`wikipedia_pipeline_incremental.py` lines 55-75): nested loops, day outer and
hour inner, appending one pattern string per (day, hour) pair. -/
def generate_date_patterns (year month : Int) (days hours : List Int) : List String :=
  days.foldl (fun patterns day =>
    hours.foldl (fun patterns hour =>
      let date_str := toString year ++ pad2 month ++ pad2 day
      let hour_str := pad2 hour ++ "0000"
      let pattern := toString year ++ "/" ++ toString year ++ "-" ++ pad2 month
        ++ "/pageviews-" ++ date_str ++ "-" ++ hour_str ++ ".gz"
      patterns ++ [pattern]) patterns) []

/-- The per-(day, hour) identifier builder, factored out of the loop body of
`generate_date_patterns` so that the reference comprehension of claim C4 can
be stated against it. -/
def identifier (year month day hour : Int) : String :=
  toString year ++ "/" ++ toString year ++ "-" ++ pad2 month
    ++ "/pageviews-" ++ (toString year ++ pad2 month ++ pad2 day)
    ++ "-" ++ (pad2 hour ++ "0000") ++ ".gz"

/-- Modelled from the spec: the content of `sql/04_load_filtered_pageviews.sql`
is not under `src/`.  Per the spec (section 4.3) the statement group executed by
the external query engine appends `appended` matching rows to the target table
(atomically: on failure nothing is appended) and may additionally report its
own affected-row count `reported`, which the code never trusts. -/
structure EngineResult where
  appended : Nat
  reported : Int
deriving DecidableEq

/-- One behaviour of the external query engine for the load statement: for a
given partition pattern it either appends rows (`.ok`) or raises (`.error`
with the exception message). -/
abbrev Engine := String → Except String EngineResult

/-- A progress-store behaviour in which every record write succeeds (the store
is available for the whole run). -/
def alwaysUp : Nat → Bool := fun _ => true

/-- One row of the DuckDB tracking table `processed_files`
(`wikipedia_pipeline_simple_incremental.py` lines 50-59): primary key
`file_pattern`, plus `rows_inserted`, `processed_at` (abstracted to a logical
clock value) and `status`.  The table has no error-message column. -/
structure ProcessedRecord where
  file_pattern : String
  rows_inserted : Int
  processed_at : Nat
  status : String
deriving DecidableEq

/-- DuckDB `INSERT OR REPLACE` keyed on the primary key `file_pattern`
(`mark_file_processed`, lines 69-76): if a row with the same key exists it is
replaced in place, otherwise the new row is inserted. -/
def upsert : List ProcessedRecord → ProcessedRecord → List ProcessedRecord
  | [], r => [r]
  | x :: xs, r =>
    if x.file_pattern == r.file_pattern then r :: xs
    else x :: upsert xs r

/-- Embeds `get_processed_files` (lines 62-67):
`SELECT file_pattern FROM processed_files WHERE status = 'success'`. -/
def get_processed_files (store : List ProcessedRecord) : List String :=
  (store.filter (fun r => r.status == "success")).map (fun r => r.file_pattern)

/-- Primary-key lookup in the tracking table. -/
def findRecord (store : List ProcessedRecord) (p : String) : Option ProcessedRecord :=
  store.find? (fun r => r.file_pattern == p)

/-- The list of primary keys of the tracking table. -/
def keysOf (store : List ProcessedRecord) : List String :=
  store.map (fun r => r.file_pattern)

/-- The mutable state threaded through one pipeline process: the row count of
the ClickHouse target table `wikistat_data_engineering`, the DuckDB tracking
store, a logical clock standing for `datetime.now()`, the number of
`mark_file_processed` calls issued so far (used to index store availability),
the run-local `total_inserted` accumulator, and the list of patterns attempted
so far in the current run (observation of execution order). -/
structure S where
  chRows : Nat
  store : List ProcessedRecord
  clock : Nat
  markCalls : Nat
  total : Int
  attempts : List String
deriving DecidableEq

/-- Embeds `mark_file_processed` (lines 69-76) under a store-availability
behaviour `avail` indexed by call count: when available, upserts the record
(with the current clock as `processed_at`) and returns `true`; when the store
is unavailable the write fails (returns `false`, caller raises). -/
def markFP (avail : Nat → Bool) (s : S) (pat : String) (rows : Int) (status : String) :
    S × Bool :=
  if avail s.markCalls then
    ({ s with store := upsert s.store ⟨pat, rows, s.clock, status⟩,
              clock := s.clock + 1, markCalls := s.markCalls + 1 }, true)
  else
    ({ s with markCalls := s.markCalls + 1 }, false)

/-- Embeds `load_pageviews_for_date` (lines 89-107): read the target table's
row count, execute the load SQL through the engine, read the count again, and
return the new count together with `rows_inserted = after_count - before_count`
(computed over the integers, exactly as the Python subtraction). -/
def load_pageviews_for_date (engine : Engine) (chRows : Nat) (pat : String) :
    Except String (Nat × Int) :=
  let before := chRows
  match engine pat with
  | .error e => .error e
  | .ok res =>
    let after := chRows + res.appended
    .ok (after, (after : Int) - (before : Int))

/-- One iteration of the `for pattern in new_patterns` loop of `run`
(lines 145-152): the `try` block loads and records success, the
`except Exception` block records failure; an exception raised inside the
`except` block propagates. -/
def processOne (engine : Engine) (avail : Nat → Bool) (s : S) (pat : String) :
    Except String S :=
  let s := { s with attempts := s.attempts ++ [pat] }
  match load_pageviews_for_date engine s.chRows pat with
  | .ok res =>
    let s1 := { s with chRows := res.1 }
    let m2 := markFP avail s1 pat res.2 "success"
    if m2.2 then .ok { m2.1 with total := m2.1.total + res.2 }
    else
      let m3 := markFP avail m2.1 pat 0 "failed"
      if m3.2 then .ok m3.1 else .error "StoreUnavailable"
  | .error _e =>
    let m2 := markFP avail s pat 0 "failed"
    if m2.2 then .ok m2.1 else .error "StoreUnavailable"

/-- The whole `for pattern in new_patterns` loop: sequential, aborting only
when an unhandled exception escapes an iteration. -/
def drain (engine : Engine) (avail : Nat → Bool) : S → List String → Except String S
  | s, [] => .ok s
  | s, pat :: rest =>
    match processOne engine avail s pat with
    | .ok s' => drain engine avail s' rest
    | .error e => .error e

/-- The configuration consumed by the pipeline (`WIKIPEDIA_CONFIG`). -/
structure Config where
  year : Int
  month : Int
  days : List Int
  hours : List Int
deriving DecidableEq

/-- The dictionary returned by `SimpleIncrementalPipeline.run`: the
short-circuit branch returns only `new_files` and `total_rows`
(no `rows_inserted` key, hence the `Option`). -/
structure RunResult where
  new_files : Nat
  rows_inserted : Option Int
  total_rows : Nat
deriving DecidableEq

/-- The work set of a run: the enumerated patterns with the already-succeeded
ones (per `get_processed_files`) removed, preserving enumeration order.  This
is exactly the `new_patterns` computation inside `run`. -/
def workSet (cfg : Config) (store : List ProcessedRecord) : List String :=
  (generate_date_patterns cfg.year cfg.month cfg.days cfg.hours).filter
    (fun p => !((get_processed_files store).contains p))

/-- Embeds `SimpleIncrementalPipeline.run` (lines 109-168): setup (which
leaves an existing tracking table untouched), enumeration, filtering of the
already-processed patterns, the short-circuit branch for an empty work list,
and the per-pattern load/record loop with the run summary. -/
def run (cfg : Config) (engine : Engine) (avail : Nat → Bool) (s0 : S) :
    Except String (RunResult × S) :=
  let sr := { s0 with attempts := [], total := 0 }
  let all_patterns := generate_date_patterns cfg.year cfg.month cfg.days cfg.hours
  let processed := get_processed_files sr.store
  let new_patterns := all_patterns.filter (fun p => !(processed.contains p))
  if new_patterns.isEmpty then
    .ok ({ new_files := 0, rows_inserted := none, total_rows := sr.chRows }, sr)
  else
    match drain engine avail sr new_patterns with
    | .error e => .error e
    | .ok s1 =>
      .ok ({ new_files := new_patterns.length, rows_inserted := some s1.total,
             total_rows := s1.chRows }, s1)

/-- Bool test for whether the engine loads a pattern without raising. -/
def engOk (engine : Engine) (p : String) : Bool :=
  match engine p with
  | .ok _ => true
  | .error _ => false

/-- The row delta a pattern contributes: its appended count on success, 0 on
failure. -/
def expectedRows (engine : Engine) (p : String) : Int :=
  match engine p with
  | .ok res => (res.appended : Int)
  | .error _ => 0

/-- The status the run records for a pattern, as a function of the engine
behaviour. -/
def expectedStatus (engine : Engine) (p : String) : String :=
  match engine p with
  | .ok _ => "success"
  | .error _ => "failed"

/-- The run of the drain loop under an always-available store, written as a
total fold; `processOne_up` below shows it agrees with `processOne`. -/
def stepPure (engine : Engine) (s : S) (pat : String) : S :=
  match engine pat with
  | .ok res =>
    { chRows := s.chRows + res.appended,
      store := upsert s.store ⟨pat, (res.appended : Int), s.clock, "success"⟩,
      clock := s.clock + 1, markCalls := s.markCalls + 1,
      total := s.total + (res.appended : Int),
      attempts := s.attempts ++ [pat] }
  | .error _ =>
    { chRows := s.chRows,
      store := upsert s.store ⟨pat, 0, s.clock, "failed"⟩,
      clock := s.clock + 1, markCalls := s.markCalls + 1,
      total := s.total,
      attempts := s.attempts ++ [pat] }

/-- The drain loop under an always-available store as a total function. -/
def drainPure (engine : Engine) (s : S) (l : List String) : S :=
  l.foldl (stepPure engine) s

/-- One entry of the `stats` list built by
`WikipediaDataEngineeringPipelineIncremental.load_wikipedia_pageviews_incremental`
(lines 144-167): a success entry has no `error_message` key (hence `none`),
a failure entry carries `str(e)`. -/
structure StatRecord where
  date_pattern : String
  rows_inserted : Int
  status : String
  error_message : Option String
deriving DecidableEq

/-- Embeds `processed_files.add(pattern)`: adding to a Python set, as
append-if-absent on the listed elements. -/
def addProcessed (processed : List String) (p : String) : List String :=
  if processed.contains p then processed else processed ++ [p]

/-- The `for pattern in patterns_to_process` loop of
`load_wikipedia_pageviews_incremental` (lines 144-167): per pattern, try to
load; on success append a success stat and add the pattern to the processed
set; on failure append a failed stat carrying the error message. -/
def incLoop (engine : Engine) (chRows : Nat) (todo : List String)
    (stats : List StatRecord) (processed : List String) :
    List StatRecord × List String × Nat :=
  match todo with
  | [] => (stats, processed, chRows)
  | p :: rest =>
    match load_pageviews_for_date engine chRows p with
    | .ok res =>
      incLoop engine res.1 rest (stats ++ [⟨p, res.2, "success", none⟩])
        (addProcessed processed p)
    | .error e =>
      incLoop engine chRows rest (stats ++ [⟨p, 0, "failed", some e⟩]) processed

/-- Embeds `load_wikipedia_pageviews_incremental` (lines 108-173): enumerate,
filter by the processed-files set held in the dlt pipeline state, short-circuit
when nothing is new, else run the per-pattern loop.  Returns the stats list
together with the updated processed set and table row count. -/
def load_wikipedia_pageviews_incremental (cfg : Config) (engine : Engine)
    (chRows : Nat) (state_processed : List String) :
    List StatRecord × List String × Nat :=
  let all_patterns := generate_date_patterns cfg.year cfg.month cfg.days cfg.hours
  let patterns_to_process := all_patterns.filter (fun p => !(state_processed.contains p))
  if patterns_to_process.isEmpty then ([], state_processed, chRows)
  else incLoop engine chRows patterns_to_process [] state_processed

/-- Connection state of `ClickHouseManager` (`clickhouse_utils.py` lines
19-47): `client` is `None` until `connect` creates one; `nextId` numbers the
client objects that would be constructed. -/
structure CHManager where
  client : Option Nat
  nextId : Nat
deriving DecidableEq

/-- Embeds `ClickHouseManager.connect` (lines 29-40): create a client only
when none exists, and return the (new or existing) client. -/
def connect (m : CHManager) : CHManager × Nat :=
  match m.client with
  | some c => (m, c)
  | none => ({ client := some m.nextId, nextId := m.nextId + 1 }, m.nextId)

/-- Embeds `ClickHouseManager.disconnect` (lines 42-47): only acts when a
client exists (`if self.client:`). -/
def disconnect (m : CHManager) : CHManager :=
  match m.client with
  | some _ => { client := none, nextId := m.nextId }
  | none => m

/-- The external ClickHouse server, opaque to the manager: `exec` is the
result of `client.execute` on a statement. -/
structure CHServer where
  exec : String → List (List Int)

/-- Embeds `ClickHouseManager.execute_query` (lines 85-103): connect, then
substitute parameters by literal string replacement and execute. -/
def execute_query (srv : CHServer) (m : CHManager) (query : String)
    (params : List (String × String)) : CHManager × List (List Int) :=
  let mc := connect m
  let q := params.foldl (fun acc kv => acc.replace ("\x7b" ++ kv.1 ++ "\x7d") kv.2) query
  (mc.1, srv.exec q)

/-- Embeds `ClickHouseManager.get_table_row_count` (lines 113-117): connect,
execute `SELECT count()`, return `result[0][0]` (raising on a malformed
result, as the Python indexing would). -/
def get_table_row_count (srv : CHServer) (m : CHManager) (table : String) :
    CHManager × Except String Int :=
  let mc := connect m
  match srv.exec ("SELECT count() FROM " ++ table) with
  | (x :: _) :: _ => (mc.1, .ok x)
  | _ => (mc.1, .error "IndexError")

/-- Embeds `ClickHouseManager.table_exists` (lines 105-111): connect, execute
`EXISTS TABLE`, compare `result[0][0]` with 1. -/
def table_exists (srv : CHServer) (m : CHManager) (table : String) :
    CHManager × Except String Bool :=
  let mc := connect m
  match srv.exec ("EXISTS TABLE " ++ table) with
  | (x :: _) :: _ => (mc.1, .ok (x == 1))
  | _ => (mc.1, .error "IndexError")

/-- Embeds `ClickHouseManager.execute_sql_file` (lines 49-83) on an
already-read file content: connect, substitute parameters, split the text on
semicolons, strip, drop empty statements, execute each in sequence, and
return the last result (or `none` when the file held no statement). -/
def execute_sql_file (srv : CHServer) (m : CHManager) (sqlText : String)
    (params : List (String × String)) : CHManager × Option (List (List Int)) :=
  let mc := connect m
  let sql := params.foldl (fun acc kv => acc.replace ("\x7b" ++ kv.1 ++ "\x7d") kv.2) sqlText
  let statements := ((sql.splitOn ";").map (fun stmt => stmt.trim)).filter
    (fun stmt => stmt ≠ "")
  let results := statements.map (fun stmt => srv.exec stmt)
  (mc.1, results.getLast?)

lemma processOne_up (engine : Engine) (s : S) (pat : String) :
    processOne engine alwaysUp s pat = .ok (stepPure engine s pat) := by
  cases h : engine pat with
  | ok res =>
    simp only [processOne, load_pageviews_for_date, h, markFP, alwaysUp, if_true,
      stepPure]
    have : ((s.chRows + res.appended : Nat) : Int) - (s.chRows : Int)
        = (res.appended : Int) := by push_cast; ring
    simp [this]
  | error e =>
    simp [processOne, load_pageviews_for_date, h, markFP, alwaysUp, stepPure]

lemma drain_up (engine : Engine) (s : S) (l : List String) :
    drain engine alwaysUp s l = .ok (drainPure engine s l) := by
  induction l generalizing s with
  | nil => rfl
  | cons pat rest ih =>
    simp [drain, processOne_up, drainPure, List.foldl_cons]
    exact ih _

lemma findRecord_upsert_self (store : List ProcessedRecord) (r : ProcessedRecord) :
    findRecord (upsert store r) r.file_pattern = some r := by
  induction store with
  | nil => simp [upsert, findRecord, List.find?]
  | cons x xs ih =>
    by_cases h : x.file_pattern = r.file_pattern
    · simp [upsert, h, findRecord, List.find?]
    · simpa [upsert, h, findRecord, List.find?] using ih

lemma findRecord_upsert_other (store : List ProcessedRecord) (r : ProcessedRecord)
    (q : String) (hq : q ≠ r.file_pattern) :
    findRecord (upsert store r) q = findRecord store q := by
  have hr : (r.file_pattern == q) = false := by
    simp only [beq_eq_false_iff_ne, ne_eq]
    exact fun hh => hq hh.symm
  induction store with
  | nil => simp [upsert, findRecord, List.find?, hr]
  | cons x xs ih =>
    by_cases h : x.file_pattern = r.file_pattern
    · have hx : (x.file_pattern == q) = false := by rw [h]; exact hr
      simp [upsert, h, findRecord, List.find?, hx, hr]
    · by_cases hxq : x.file_pattern = q
      · simp [upsert, h, findRecord, List.find?, hxq, hq]
      · have hx : (x.file_pattern == q) = false := by
          simp only [beq_eq_false_iff_ne, ne_eq]; exact hxq
        simp only [upsert, beq_iff_eq, h, if_false, findRecord, List.find?, hx]
        exact ih

lemma keysOf_upsert_mem (store : List ProcessedRecord) (r : ProcessedRecord)
    (q : String) (hq : q ∈ keysOf (upsert store r)) :
    q ∈ keysOf store ∨ q = r.file_pattern := by
  induction store with
  | nil =>
    simp only [upsert, keysOf, List.map_cons, List.map_nil, List.mem_singleton] at hq
    exact Or.inr hq
  | cons x xs ih =>
    by_cases h : x.file_pattern = r.file_pattern
    · simp only [upsert, beq_iff_eq, h, if_true, keysOf, List.map_cons,
        List.mem_cons] at hq
      rcases hq with hq | hq
      · exact Or.inr hq
      · exact Or.inl (List.mem_cons.2 (Or.inr (by simpa [keysOf] using hq)))
    · simp only [upsert, beq_iff_eq, h, if_false, keysOf, List.map_cons,
        List.mem_cons] at hq
      rcases hq with hq | hq
      · exact Or.inl (List.mem_cons.2 (Or.inl hq))
      · rcases ih (by simpa [keysOf] using hq) with h' | h'
        · exact Or.inl (List.mem_cons.2 (Or.inr (by simpa [keysOf] using h')))
        · exact Or.inr h'

lemma keysOf_upsert_nodup (store : List ProcessedRecord) (r : ProcessedRecord)
    (hnd : (keysOf store).Nodup) : (keysOf (upsert store r)).Nodup := by
  induction store with
  | nil => simp [upsert, keysOf]
  | cons x xs ih =>
    simp only [keysOf, List.map_cons, List.nodup_cons] at hnd
    by_cases h : x.file_pattern = r.file_pattern
    · simp only [upsert, h, beq_iff_eq, if_true, keysOf, List.map_cons,
        List.nodup_cons]
      exact ⟨by rw [← h]; exact (by simpa [keysOf] using hnd.1), hnd.2⟩
    · simp only [upsert, beq_iff_eq, h, if_false, keysOf, List.map_cons,
        List.nodup_cons]
      refine ⟨fun hmem => ?_, ih hnd.2⟩
      rcases keysOf_upsert_mem xs r _ hmem with h' | h'
      · exact hnd.1 (by simpa [keysOf] using h')
      · exact h h'

lemma mem_get_processed_files (store : List ProcessedRecord) (p : String) :
    p ∈ get_processed_files store ↔
      ∃ rec ∈ store, rec.file_pattern = p ∧ rec.status = "success" := by
  simp only [get_processed_files, List.mem_map, List.mem_filter, beq_iff_eq]
  constructor
  · rintro ⟨rec, ⟨hmem, hst⟩, hfp⟩
    exact ⟨rec, hmem, hfp, hst⟩
  · rintro ⟨rec, hmem, hfp, hst⟩
    exact ⟨rec, ⟨hmem, hst⟩, hfp⟩

lemma gpf_find_of_nodup (store : List ProcessedRecord) (p : String)
    (hnd : (keysOf store).Nodup) :
    p ∈ get_processed_files store ↔
      ∃ rec, findRecord store p = some rec ∧ rec.status = "success" := by
  constructor
  · intro hp
    rcases (mem_get_processed_files store p).1 hp with ⟨rec, hmem, hfp, hst⟩
    refine ⟨rec, ?_, hst⟩
    clear hp
    induction store with
    | nil => simp at hmem
    | cons x xs ih =>
      simp only [keysOf, List.map_cons, List.nodup_cons] at hnd
      rcases List.mem_cons.1 hmem with rfl | hmem'
      · simp [findRecord, List.find?, hfp]
      · have hx : (x.file_pattern == p) = false := by
          simp only [beq_eq_false_iff_ne, ne_eq]
          intro hxp
          exact hnd.1 (by simp [keysOf]; exact ⟨rec, hmem', by rw [hfp, hxp]⟩)
        simpa [findRecord, List.find?, hx] using ih hnd.2 hmem'
  · rintro ⟨rec, hfind, hst⟩
    have hmem := List.mem_of_find?_eq_some hfind
    have hfp : rec.file_pattern = p := by
      have := List.find?_some hfind
      simpa using this
    exact (mem_get_processed_files store p).2 ⟨rec, hmem, hfp, hst⟩

lemma drainPure_attempts (engine : Engine) (s : S) (l : List String) :
    (drainPure engine s l).attempts = s.attempts ++ l := by
  induction l generalizing s with
  | nil => simp [drainPure]
  | cons pat rest ih =>
    have := ih (stepPure engine s pat)
    simp only [drainPure, List.foldl_cons] at this ⊢
    rw [this]
    cases h : engine pat <;> simp [stepPure, h]

lemma drainPure_total (engine : Engine) (s : S) (l : List String) :
    (drainPure engine s l).total = s.total + (l.map (expectedRows engine)).sum := by
  induction l generalizing s with
  | nil => simp [drainPure]
  | cons pat rest ih =>
    have := ih (stepPure engine s pat)
    simp only [drainPure, List.foldl_cons] at this ⊢
    rw [this]
    cases h : engine pat with
    | ok res =>
      simp [stepPure, h, expectedRows]
      ring
    | error e => simp [stepPure, h, expectedRows]

lemma drainPure_find_not_mem (engine : Engine) (s : S) (l : List String)
    (p : String) (hp : p ∉ l) :
    findRecord (drainPure engine s l).store p = findRecord s.store p := by
  induction l generalizing s with
  | nil => simp [drainPure]
  | cons pat rest ih =>
    have hne : p ≠ pat := fun h => hp (by simp [h])
    have hrest : p ∉ rest := fun h => hp (by simp [h])
    have hstep := ih (stepPure engine s pat) hrest
    simp only [drainPure] at hstep
    simp only [drainPure, List.foldl_cons]
    rw [hstep]
    cases h : engine pat <;>
      simpa [stepPure, h] using findRecord_upsert_other s.store _ p hne

lemma drainPure_find_mem (engine : Engine) (s : S) (l : List String)
    (p : String) (hp : p ∈ l) :
    ∃ t, findRecord (drainPure engine s l).store p =
      some ⟨p, expectedRows engine p, t, expectedStatus engine p⟩ := by
  induction l generalizing s with
  | nil => simp at hp
  | cons pat rest ih =>
    by_cases hrest : p ∈ rest
    · simpa only [drainPure, List.foldl_cons] using ih (stepPure engine s pat) hrest
    · have hppat : p = pat := by
        rcases List.mem_cons.1 hp with h | h
        · exact h
        · exact absurd h hrest
      subst hppat
      refine ⟨s.clock, ?_⟩
      have hunch := drainPure_find_not_mem engine (stepPure engine s p) rest p hrest
      simp only [drainPure] at hunch
      simp only [drainPure, List.foldl_cons]
      rw [hunch]
      cases h : engine p with
      | ok res =>
        simpa [stepPure, h, expectedRows, expectedStatus] using
          findRecord_upsert_self s.store ⟨p, (res.appended : Int), s.clock, "success"⟩
      | error e =>
        simpa [stepPure, h, expectedRows, expectedStatus] using
          findRecord_upsert_self s.store ⟨p, 0, s.clock, "failed"⟩

lemma drainPure_keys_nodup (engine : Engine) (s : S) (l : List String)
    (hnd : (keysOf s.store).Nodup) :
    (keysOf (drainPure engine s l).store).Nodup := by
  induction l generalizing s with
  | nil => simpa [drainPure] using hnd
  | cons pat rest ih =>
    refine ih (stepPure engine s pat) ?_
    cases h : engine pat <;> simpa [stepPure, h] using keysOf_upsert_nodup s.store _ hnd

lemma length_filter_add_length_not (l : List String) (f : String → Bool) :
    (l.filter f).length + (l.filter (fun x => !(f x))).length = l.length := by
  induction l with
  | nil => rfl
  | cons x xs ih =>
    by_cases h : f x = true
    · rw [List.filter_cons_of_pos h,
        List.filter_cons_of_neg (by simp [h]),
        List.length_cons, List.length_cons, Nat.succ_add, ih]
    · simp only [Bool.not_eq_true] at h
      rw [List.filter_cons_of_neg (by simp [h]),
        List.filter_cons_of_pos (by simp [h]),
        List.length_cons, List.length_cons, Nat.add_succ, ih]

lemma run_up (cfg : Config) (engine : Engine) (s0 : S) :
    run cfg engine alwaysUp s0 =
      if (workSet cfg s0.store).isEmpty then
        .ok ({ new_files := 0, rows_inserted := none, total_rows := s0.chRows },
             { s0 with attempts := [], total := 0 })
      else
        .ok ({ new_files := (workSet cfg s0.store).length,
               rows_inserted := some
                 (drainPure engine { s0 with attempts := [], total := 0 }
                   (workSet cfg s0.store)).total,
               total_rows :=
                 (drainPure engine { s0 with attempts := [], total := 0 }
                   (workSet cfg s0.store)).chRows },
             drainPure engine { s0 with attempts := [], total := 0 }
               (workSet cfg s0.store)) := by
  simp only [run, workSet, drain_up]

lemma sum_expectedRows_filter (engine : Engine) (l : List String) :
    ((l.filter (engOk engine)).map (expectedRows engine)).sum
      = (l.map (expectedRows engine)).sum := by
  induction l with
  | nil => rfl
  | cons p rest ih =>
    by_cases h : engOk engine p = true
    · simp [List.filter_cons, h, ih]
    · have h0 : expectedRows engine p = 0 := by
        unfold engOk at h
        unfold expectedRows
        cases he : engine p <;> simp [he] at h ⊢
      simp only [Bool.not_eq_true] at h
      simp [List.filter_cons, h, ih, h0]

lemma foldl_append_singleton {α β : Type} (g : α → β) (l : List α) (acc : List β) :
    l.foldl (fun ps h => ps ++ [g h]) acc = acc ++ l.map g := by
  induction l generalizing acc with
  | nil => simp
  | cons x xs ih => simp [ih]

lemma generate_eq_foldl (year month : Int) (days hours : List Int) :
    generate_date_patterns year month days hours =
      days.foldl (fun patterns day =>
        hours.foldl (fun patterns hour =>
          patterns ++ [identifier year month day hour]) patterns) [] := rfl

lemma generate_flatMap (year month : Int) (days hours : List Int) :
    generate_date_patterns year month days hours =
      days.flatMap (fun d => hours.map (fun h => identifier year month d h)) := by
  rw [generate_eq_foldl]
  suffices h : ∀ (ds : List Int) (acc : List String),
      ds.foldl (fun patterns day =>
        hours.foldl (fun patterns hour =>
          patterns ++ [identifier year month day hour]) patterns) acc
      = acc ++ ds.flatMap (fun d => hours.map (fun h => identifier year month d h)) by
    simpa using h days []
  intro ds
  induction ds with
  | nil => simp
  | cons d rest ih =>
    intro acc
    simp only [List.foldl_cons]
    rw [foldl_append_singleton, ih]
    simp [List.append_assoc]

/-- C4 (confirmed).  Partition enumeration equals the reference comprehension:
for every `(year, month, days, hours)`, `generate_date_patterns` returns
exactly one identifier per (day, hour) pair, day as outer loop and hour as
inner loop, in the given orders (formally: the flatMap/map comprehension over
`identifier`, whose definition zero-pads month and day and suffixes the
zero-padded hour with "0000"); empty `days` or `hours` yields `[]`, not an
error; and the specification's worked example holds, exhibiting day-major
order. -/
theorem enumeration_matches_reference_comprehension :
    (∀ (year month : Int) (days hours : List Int),
      generate_date_patterns year month days hours =
        days.flatMap (fun d => hours.map (fun h => identifier year month d h))) ∧
    (∀ (year month : Int) (hours : List Int),
      generate_date_patterns year month [] hours = []) ∧
    (∀ (year month : Int) (days : List Int),
      generate_date_patterns year month days [] = []) ∧
    generate_date_patterns 2025 1 [1, 2] [0, 1] =
      ["2025/2025-01/pageviews-20250101-000000.gz",
       "2025/2025-01/pageviews-20250101-010000.gz",
       "2025/2025-01/pageviews-20250102-000000.gz",
       "2025/2025-01/pageviews-20250102-010000.gz"] := by
  refine ⟨generate_flatMap, ?_, ?_, by rfl⟩
  · intro year month hours
    rw [generate_flatMap]
    simp
  · intro year month days
    rw [generate_flatMap]
    simp

/-- C2 (confirmed).  Work-set computation: for every configuration and store
state (under an available store), the attempted sequence equals the enumerated
sequence with the already-succeeded identifiers (exactly those having a
success record, first conjunct) removed, preserving enumeration order; and an
empty work set short-circuits: the run returns normally with zero attempted
(no load, table and store untouched, empty attempt list). -/
theorem work_set_computation (cfg : Config) (engine : Engine) (s0 : S) :
    (∀ p, p ∈ get_processed_files s0.store ↔
      ∃ rec ∈ s0.store, rec.file_pattern = p ∧ rec.status = "success") ∧
    (∃ r s', run cfg engine alwaysUp s0 = .ok (r, s') ∧
      s'.attempts = workSet cfg s0.store) ∧
    (workSet cfg s0.store = [] →
      run cfg engine alwaysUp s0 =
        .ok ({ new_files := 0, rows_inserted := none, total_rows := s0.chRows },
             { s0 with attempts := [], total := 0 })) := by
  refine ⟨fun p => mem_get_processed_files s0.store p, ?_, ?_⟩
  · rw [run_up]
    by_cases hws : (workSet cfg s0.store).isEmpty
    · rw [if_pos hws]
      exact ⟨_, _, rfl, by simpa [List.isEmpty_iff] using hws⟩
    · rw [if_neg hws]
      refine ⟨_, _, rfl, ?_⟩
      rw [drainPure_attempts]
      simp
  · intro hws
    rw [run_up, if_pos (by simp [hws])]

/-- C2 witness: a configuration with no days enumerates nothing, the work set
is empty, and the run short-circuits exactly as stated. -/
theorem work_set_computation_witness :
    workSet ⟨2025, 1, [], [0]⟩ ([] : List ProcessedRecord) = [] ∧
    run ⟨2025, 1, [], [0]⟩ (fun _ => .error "never called") alwaysUp
        ⟨0, [], 0, 0, 0, []⟩ =
      .ok ({ new_files := 0, rows_inserted := none, total_rows := 0 },
           ⟨0, [], 0, 0, 0, []⟩) :=
  ⟨rfl, (work_set_computation ⟨2025, 1, [], [0]⟩ (fun _ => .error "never called")
    ⟨0, [], 0, 0, 0, []⟩).2.2 rfl⟩

lemma incLoop_stats_mono (engine : Engine) (todo : List String) (chRows : Nat)
    (stats : List StatRecord) (processed : List String) (r : StatRecord)
    (hr : r ∈ stats) : r ∈ (incLoop engine chRows todo stats processed).1 := by
  induction todo generalizing chRows stats processed with
  | nil => simpa [incLoop] using hr
  | cons p rest ih =>
    simp only [incLoop]
    cases h : load_pageviews_for_date engine chRows p with
    | ok res => exact ih _ _ _ (by simp [hr])
    | error e => exact ih _ _ _ (by simp [hr])

lemma incLoop_failed_mem (engine : Engine) (todo : List String) (chRows : Nat)
    (stats : List StatRecord) (processed : List String) (p e : String)
    (hp : p ∈ todo) (he : engine p = .error e) :
    (⟨p, 0, "failed", some e⟩ : StatRecord) ∈
      (incLoop engine chRows todo stats processed).1 := by
  induction todo generalizing chRows stats processed with
  | nil => simp at hp
  | cons q rest ih =>
    simp only [incLoop]
    rcases List.mem_cons.1 hp with rfl | hmem
    · rw [show load_pageviews_for_date engine chRows p = .error e by
        simp [load_pageviews_for_date, he]]
      exact incLoop_stats_mono engine rest chRows _ processed _ (by simp)
    · cases h : load_pageviews_for_date engine chRows q with
      | ok res => exact ih _ _ _ hmem
      | error e' => exact ih _ _ _ hmem

/-- C1 (amended).  Failure isolation: under an available store, every
identifier of a non-empty work set is attempted, in work-set order; the run
returns normally (never raises); each attempted identifier ends up recorded,
a failed load as `(identifier, 0, failed)` and a successful one with its row
delta and status success; succeeded-count and failed-count partition the
attempted count.  The error message of a failure is recorded only by the
dlt-based pipeline, whose stats list gains the entry
`(identifier, 0, failed, str(e))` for every work-set identifier whose load
raises `e`; the simple pipeline's tracking row has no error field
(see the counterexample). -/
theorem failure_isolation :
    (∀ (cfg : Config) (engine : Engine) (s0 : S),
      workSet cfg s0.store ≠ [] →
      ∃ r s', run cfg engine alwaysUp s0 = .ok (r, s') ∧
        s'.attempts = workSet cfg s0.store ∧
        (∀ p ∈ workSet cfg s0.store, ∃ t, findRecord s'.store p =
          some ⟨p, expectedRows engine p, t, expectedStatus engine p⟩) ∧
        ((workSet cfg s0.store).filter (engOk engine)).length
          + ((workSet cfg s0.store).filter (fun p => !(engOk engine p))).length
          = (workSet cfg s0.store).length) ∧
    (∀ (cfg : Config) (engine : Engine) (chRows : Nat)
        (state_processed : List String) (p e : String),
      p ∈ (generate_date_patterns cfg.year cfg.month cfg.days cfg.hours).filter
            (fun q => !(state_processed.contains q)) →
      engine p = .error e →
      (⟨p, 0, "failed", some e⟩ : StatRecord) ∈
        (load_wikipedia_pageviews_incremental cfg engine chRows state_processed).1) := by
  constructor
  · intro cfg engine s0 hws
    rw [run_up, if_neg (by simpa [List.isEmpty_iff] using hws)]
    refine ⟨_, _, rfl, ?_, ?_, ?_⟩
    · rw [drainPure_attempts]; simp
    · intro p hp
      exact drainPure_find_mem engine _ (workSet cfg s0.store) p hp
    · exact length_filter_add_length_not _ _
  · intro cfg engine chRows state_processed p e hp he
    have hne : ¬ (((generate_date_patterns cfg.year cfg.month cfg.days cfg.hours).filter
        (fun q => !(state_processed.contains q))).isEmpty = true) := by
      rw [List.isEmpty_iff]
      exact List.ne_nil_of_mem hp
    unfold load_wikipedia_pageviews_incremental
    rw [if_neg hne]
    exact incLoop_failed_mem engine _ chRows [] state_processed p e hp he

/-- C1 counterexample.  The simple pipeline does not record the error message:
two load behaviours that differ only in the exception message produce
bit-for-bit identical run output and identical tracking stores (the DuckDB
`processed_files` table has no error column), so the message cannot have been
recorded.  This refutes the claim's "records ... and the error message" for
the simple tracking pipeline. -/
theorem failure_isolation_msg_counterexample :
    run ⟨2025, 1, [1], [0]⟩ (fun _ => .error "boom-A") alwaysUp ⟨0, [], 0, 0, 0, []⟩
      = run ⟨2025, 1, [1], [0]⟩ (fun _ => .error "boom-B") alwaysUp ⟨0, [], 0, 0, 0, []⟩
    ∧ ("boom-A" : String) ≠ "boom-B" :=
  ⟨rfl, by decide⟩

/-- C1 witness: the specification's 3-partition scenario.  Partition 2 of 3
fails, partitions 1 and 3 are still attempted and recorded, the run returns
normally, succeeded-count is 2 and failed-count 1; and the dlt-based pipeline
records the failed partition's error message in its stats. -/
theorem failure_isolation_witness :
    (workSet ⟨2025, 1, [1], [0, 1, 2]⟩ [] ≠ [] ∧
     ∃ r s', run ⟨2025, 1, [1], [0, 1, 2]⟩
        (fun p => if p = "2025/2025-01/pageviews-20250101-010000.gz"
          then .error "net down" else .ok ⟨10, 10⟩) alwaysUp ⟨0, [], 0, 0, 0, []⟩
          = .ok (r, s') ∧
        s'.attempts = workSet ⟨2025, 1, [1], [0, 1, 2]⟩ [] ∧
        (∀ p ∈ workSet ⟨2025, 1, [1], [0, 1, 2]⟩ [], ∃ t, findRecord s'.store p =
          some ⟨p, expectedRows (fun p => if p = "2025/2025-01/pageviews-20250101-010000.gz"
            then .error "net down" else .ok ⟨10, 10⟩) p, t,
            expectedStatus (fun p => if p = "2025/2025-01/pageviews-20250101-010000.gz"
              then .error "net down" else .ok ⟨10, 10⟩) p⟩) ∧
        ((workSet ⟨2025, 1, [1], [0, 1, 2]⟩ []).filter
            (engOk (fun p => if p = "2025/2025-01/pageviews-20250101-010000.gz"
              then .error "net down" else .ok ⟨10, 10⟩))).length
          + ((workSet ⟨2025, 1, [1], [0, 1, 2]⟩ []).filter
              (fun p => !(engOk (fun p => if p = "2025/2025-01/pageviews-20250101-010000.gz"
                then .error "net down" else .ok ⟨10, 10⟩) p))).length
          = (workSet ⟨2025, 1, [1], [0, 1, 2]⟩ []).length) ∧
    ((workSet ⟨2025, 1, [1], [0, 1, 2]⟩ []).filter
        (engOk (fun p => if p = "2025/2025-01/pageviews-20250101-010000.gz"
          then .error "net down" else .ok ⟨10, 10⟩))).length = 2 ∧
    ((workSet ⟨2025, 1, [1], [0, 1, 2]⟩ []).filter
        (fun p => !(engOk (fun p => if p = "2025/2025-01/pageviews-20250101-010000.gz"
          then .error "net down" else .ok ⟨10, 10⟩) p))).length = 1 ∧
    (⟨"2025/2025-01/pageviews-20250101-010000.gz", 0, "failed", some "net down"⟩
        : StatRecord) ∈
      (load_wikipedia_pageviews_incremental ⟨2025, 1, [1], [0, 1, 2]⟩
        (fun p => if p = "2025/2025-01/pageviews-20250101-010000.gz"
          then .error "net down" else .ok ⟨10, 10⟩) 0 []).1 :=
  ⟨⟨by decide, failure_isolation.1 ⟨2025, 1, [1], [0, 1, 2]⟩
      (fun p => if p = "2025/2025-01/pageviews-20250101-010000.gz"
        then .error "net down" else .ok ⟨10, 10⟩) ⟨0, [], 0, 0, 0, []⟩ (by decide)⟩,
   by decide, by decide,
   failure_isolation.2 ⟨2025, 1, [1], [0, 1, 2]⟩
     (fun p => if p = "2025/2025-01/pageviews-20250101-010000.gz"
       then .error "net down" else .ok ⟨10, 10⟩) 0 []
     "2025/2025-01/pageviews-20250101-010000.gz" "net down" (by decide) rfl⟩

lemma mem_workSet_iff (cfg : Config) (store : List ProcessedRecord) (p : String) :
    p ∈ workSet cfg store ↔
      p ∈ generate_date_patterns cfg.year cfg.month cfg.days cfg.hours ∧
        p ∉ get_processed_files store := by
  simp [workSet, List.mem_filter, List.elem_iff]

/-- C3 (confirmed).  `get_processed_files` returns exactly the identifiers
having a record with status success (first conjunct); consequently, after a
run, every work-set identifier whose load failed is again in the work set of
the next run with the same configuration (retried), while every work-set
identifier whose load succeeded is not; and the next run indeed attempts
exactly that next work set. -/
theorem cross_run_convergence (cfg : Config) (engine : Engine) (s0 : S)
    (hnd : (keysOf s0.store).Nodup) :
    (∀ (store : List ProcessedRecord) (p : String),
      p ∈ get_processed_files store ↔
        ∃ rec ∈ store, rec.file_pattern = p ∧ rec.status = "success") ∧
    (∀ r s', run cfg engine alwaysUp s0 = .ok (r, s') →
      (∀ p ∈ workSet cfg s0.store,
        engOk engine p = false → p ∈ workSet cfg s'.store) ∧
      (∀ p ∈ workSet cfg s0.store,
        engOk engine p = true → p ∉ workSet cfg s'.store) ∧
      (∃ r2 s2, run cfg engine alwaysUp s' = .ok (r2, s2) ∧
        s2.attempts = workSet cfg s'.store)) := by
  refine ⟨fun store p => mem_get_processed_files store p, ?_⟩
  intro r s' hrun
  have hrun2 : ∃ r2 s2, run cfg engine alwaysUp s' = .ok (r2, s2) ∧
      s2.attempts = workSet cfg s'.store := by
    rw [run_up]
    by_cases hws : (workSet cfg s'.store).isEmpty
    · rw [if_pos hws]
      exact ⟨_, _, rfl, by simpa [List.isEmpty_iff] using hws⟩
    · rw [if_neg hws]
      refine ⟨_, _, rfl, ?_⟩
      rw [drainPure_attempts]
      simp
  rw [run_up] at hrun
  by_cases hws : (workSet cfg s0.store).isEmpty
  · rw [if_pos hws] at hrun
    have hempty : workSet cfg s0.store = [] := List.isEmpty_iff.mp hws
    refine ⟨?_, ?_, ?_⟩
    · intro p hp; rw [hempty] at hp; simp at hp
    · intro p hp; rw [hempty] at hp; simp at hp
    · exact hrun2
  · rw [if_neg hws] at hrun
    have hpair := Except.ok.inj hrun
    have hs' : s' = drainPure engine { s0 with attempts := [], total := 0 }
        (workSet cfg s0.store) := (congrArg Prod.snd hpair).symm
    subst hs'
    have hnd' : (keysOf (drainPure engine { s0 with attempts := [], total := 0 }
        (workSet cfg s0.store)).store).Nodup :=
      drainPure_keys_nodup engine _ _ (by simpa [keysOf] using hnd)
    refine ⟨?_, ?_, hrun2⟩
    · intro p hp hfail
      rcases drainPure_find_mem engine { s0 with attempts := [], total := 0 }
        (workSet cfg s0.store) p hp with ⟨t, hfind⟩
      have hstatus : expectedStatus engine p = "failed" := by
        unfold expectedStatus
        unfold engOk at hfail
        cases h : engine p <;> simp [h] at hfail ⊢
      rw [mem_workSet_iff]
      refine ⟨(List.mem_filter.1 hp).1, fun hgpf => ?_⟩
      rcases (gpf_find_of_nodup _ p hnd').1 hgpf with ⟨rec, hfind', hsucc⟩
      rw [hfind] at hfind'
      have : rec.status = "failed" := by
        have := Option.some.inj hfind'
        rw [← this]
        simp [hstatus]
      rw [hsucc] at this
      exact absurd this (by decide)
    · intro p hp hok
      rcases drainPure_find_mem engine { s0 with attempts := [], total := 0 }
        (workSet cfg s0.store) p hp with ⟨t, hfind⟩
      have hstatus : expectedStatus engine p = "success" := by
        unfold expectedStatus
        unfold engOk at hok
        cases h : engine p <;> simp [h] at hok ⊢
      rw [mem_workSet_iff]
      rintro ⟨-, hnot⟩
      exact hnot ((gpf_find_of_nodup _ p hnd').2
        ⟨_, hfind, by simp [hstatus]⟩)

/-- C3 witness: one partition, empty store, a load that always raises; the
theorem applied at this input shows the failed partition reappears in the
work set computed from the post-run store (it will be retried). -/
theorem cross_run_convergence_witness :
    "2025/2025-01/pageviews-20250101-000000.gz" ∈
      workSet ⟨2025, 1, [1], [0]⟩
        [⟨"2025/2025-01/pageviews-20250101-000000.gz", 0, 0, "failed"⟩] :=
  (((cross_run_convergence ⟨2025, 1, [1], [0]⟩ (fun _ => .error "gone")
      ⟨0, [], 0, 0, 0, []⟩ (by decide)).2 ⟨1, some 0, 0⟩
      ⟨0, [⟨"2025/2025-01/pageviews-20250101-000000.gz", 0, 0, "failed"⟩], 1, 1, 0,
        ["2025/2025-01/pageviews-20250101-000000.gz"]⟩ rfl).1)
    "2025/2025-01/pageviews-20250101-000000.gz" (by decide) rfl

/-- C5 (confirmed over the spec-modelled load statement, which appends
atomically).  Row accounting: a successful load returns exactly the target
table's row count after the statements minus the count before — the number of
rows the engine actually appended, not whatever count it reports — and this
delta is a non-negative integer; the run's `rows_inserted` total is the sum of
the deltas of the partitions that succeeded in this run, failed partitions
contributing 0. -/
theorem row_accounting :
    (∀ (engine : Engine) (n : Nat) (p : String) (res : EngineResult),
      engine p = .ok res →
        load_pageviews_for_date engine n p = .ok (n + res.appended, (res.appended : Int)) ∧
        (res.appended : Int) = ((n + res.appended : Nat) : Int) - (n : Int) ∧
        0 ≤ ((res.appended : Nat) : Int)) ∧
    (∀ (cfg : Config) (engine : Engine) (s0 : S),
      workSet cfg s0.store ≠ [] →
      ∃ r s', run cfg engine alwaysUp s0 = .ok (r, s') ∧
        r.rows_inserted = some (((workSet cfg s0.store).filter (engOk engine)).map
          (expectedRows engine)).sum ∧
        (∀ p, engOk engine p = false → expectedRows engine p = 0)) := by
  constructor
  · intro engine n p res he
    refine ⟨?_, by push_cast; ring, by positivity⟩
    simp only [load_pageviews_for_date, he]
    congr 1
    push_cast
    ring_nf
  · intro cfg engine s0 hws
    rw [run_up, if_neg (by simpa [List.isEmpty_iff] using hws)]
    refine ⟨_, _, rfl, ?_, ?_⟩
    · rw [drainPure_total, sum_expectedRows_filter]
      simp
    · intro p hfail
      unfold engOk at hfail
      unfold expectedRows
      cases h : engine p <;> simp [h] at hfail ⊢

/-- C5 witness: a two-partition run in which the first load appends 7 rows
(while reporting a wrong count of 100, which is ignored) and the second
raises; the run total is 7 and the failed partition contributes 0. -/
theorem row_accounting_witness :
    ((fun p => if p = "2025/2025-01/pageviews-20250101-000000.gz"
        then .ok ⟨7, 100⟩ else .error "gone" : Engine)
      "2025/2025-01/pageviews-20250101-000000.gz" = .ok ⟨7, 100⟩ ∧
     load_pageviews_for_date
        (fun p => if p = "2025/2025-01/pageviews-20250101-000000.gz"
          then .ok ⟨7, 100⟩ else .error "gone") 3
        "2025/2025-01/pageviews-20250101-000000.gz" = .ok (3 + 7, (7 : Int))) ∧
    workSet ⟨2025, 1, [1], [0, 1]⟩ [] ≠ [] ∧
    (∃ r s', run ⟨2025, 1, [1], [0, 1]⟩
        (fun p => if p = "2025/2025-01/pageviews-20250101-000000.gz"
          then .ok ⟨7, 100⟩ else .error "gone") alwaysUp ⟨0, [], 0, 0, 0, []⟩
        = .ok (r, s') ∧
      r.rows_inserted = some (((workSet ⟨2025, 1, [1], [0, 1]⟩ []).filter
        (engOk (fun p => if p = "2025/2025-01/pageviews-20250101-000000.gz"
          then .ok ⟨7, 100⟩ else .error "gone"))).map
        (expectedRows (fun p => if p = "2025/2025-01/pageviews-20250101-000000.gz"
          then .ok ⟨7, 100⟩ else .error "gone"))).sum ∧
      (∀ p, engOk (fun p => if p = "2025/2025-01/pageviews-20250101-000000.gz"
          then .ok ⟨7, 100⟩ else .error "gone") p = false →
        expectedRows (fun p => if p = "2025/2025-01/pageviews-20250101-000000.gz"
          then .ok ⟨7, 100⟩ else .error "gone") p = 0)) :=
  ⟨⟨rfl, (row_accounting.1 (fun p => if p = "2025/2025-01/pageviews-20250101-000000.gz"
      then .ok ⟨7, 100⟩ else .error "gone") 3
      "2025/2025-01/pageviews-20250101-000000.gz" ⟨7, 100⟩ rfl).1⟩,
   by decide,
   row_accounting.2 ⟨2025, 1, [1], [0, 1]⟩
     (fun p => if p = "2025/2025-01/pageviews-20250101-000000.gz"
       then .ok ⟨7, 100⟩ else .error "gone") ⟨0, [], 0, 0, 0, []⟩ (by decide)⟩

/-- C6 (confirmed).  Progress-record upsert invariant: starting from a store
with pairwise-distinct primary keys (as the `PRIMARY KEY` tracking table
created by `setup_tables` guarantees), any sequence of record writes preserves
at-most-one-record-per-identifier; the record resulting from re-recording an
identifier is exactly the new record in every field, whatever record (for
instance a failed one) was there before; and `mark_file_processed` performs
exactly this upsert on the store. -/
theorem upsert_invariant (store : List ProcessedRecord) (rs : List ProcessedRecord)
    (r' : ProcessedRecord) (hnd : (keysOf store).Nodup) :
    (keysOf (rs.foldl upsert store)).Nodup ∧
    findRecord (upsert store r') r'.file_pattern = some r' ∧
    (∀ (avail : Nat → Bool) (s : S) (pat : String) (rows : Int) (status : String),
      avail s.markCalls = true →
      (markFP avail s pat rows status).1.store =
        upsert s.store ⟨pat, rows, s.clock, status⟩) := by
  refine ⟨?_, findRecord_upsert_self store r', ?_⟩
  · induction rs generalizing store with
    | nil => simpa using hnd
    | cons r rest ih =>
      simpa using ih (upsert store r) (keysOf_upsert_nodup store r hnd)
  · intro avail s pat rows status hav
    simp [markFP, hav]

/-- C6 witness: a store holding a failed record for "p"; re-recording "p" as a
success yields exactly the new record — no field of the failed record (there
is no error field at all in the schema) survives. -/
theorem upsert_invariant_witness :
    (keysOf (([⟨"q", 1, 0, "success"⟩] : List ProcessedRecord).foldl upsert
      [⟨"p", 0, 0, "failed"⟩])).Nodup ∧
    findRecord (upsert [⟨"p", 0, 0, "failed"⟩] ⟨"p", 10, 1, "success"⟩) "p" =
      some ⟨"p", 10, 1, "success"⟩ :=
  ⟨(upsert_invariant [⟨"p", 0, 0, "failed"⟩] [⟨"q", 1, 0, "success"⟩]
      ⟨"p", 10, 1, "success"⟩ (by decide)).1,
   (upsert_invariant [⟨"p", 0, 0, "failed"⟩] [⟨"q", 1, 0, "success"⟩]
      ⟨"p", 10, 1, "success"⟩ (by decide)).2.1⟩

/-- C7 (amended).  How the code really treats a mid-run store failure: (i) a
store failure while recording a *failed* outcome escapes the per-partition
handler and aborts the run with the error (remaining partitions are not
attempted, conjunct (iv) lifts the abort to `run`); (ii) a store failure
while recording a *success* outcome is caught by the per-partition
`except Exception` handler, which then tries to record the partition as
failed — if that second write also fails the run aborts; (iii) but if the
second write succeeds, the successfully loaded partition is recorded as
`failed` with 0 rows and the run continues — the code does convert a
store-record failure into a per-partition failed record in this case
(see the counterexample). -/
theorem store_failure_handling (engine : Engine) (avail : Nat → Bool) (s : S)
    (pat : String) (rest : List String) :
    (∀ e, engine pat = .error e → avail s.markCalls = false →
      drain engine avail s (pat :: rest) = .error "StoreUnavailable") ∧
    (∀ res, engine pat = .ok res → avail s.markCalls = false →
      avail (s.markCalls + 1) = false →
      drain engine avail s (pat :: rest) = .error "StoreUnavailable") ∧
    (∀ res, engine pat = .ok res → avail s.markCalls = false →
      avail (s.markCalls + 1) = true →
      ∃ s', processOne engine avail s pat = .ok s' ∧
        findRecord s'.store pat = some ⟨pat, 0, s.clock, "failed"⟩ ∧
        drain engine avail s (pat :: rest) = drain engine avail s' rest) ∧
    (∀ (cfg : Config) (s0 : S) (e : String),
      drain engine avail { s0 with attempts := [], total := 0 }
        (workSet cfg s0.store) = .error e →
      run cfg engine avail s0 = .error e) := by
    refine ⟨?_, ?_, ?_, ?_⟩
    · intro e he hav
      simp [drain, processOne, load_pageviews_for_date, he, markFP, hav]
    · intro res he hav hav2
      simp [drain, processOne, load_pageviews_for_date, he, markFP, hav, hav2]
    · intro res he hav hav2
      have hpo : processOne engine avail s pat = .ok
          { chRows := s.chRows + res.appended,
            store := upsert s.store ⟨pat, 0, s.clock, "failed"⟩,
            clock := s.clock + 1, markCalls := s.markCalls + 1 + 1,
            total := s.total, attempts := s.attempts ++ [pat] } := by
        simp [processOne, load_pageviews_for_date, he, markFP, hav, hav2]
      refine ⟨_, hpo, ?_, ?_⟩
      · exact findRecord_upsert_self _ ⟨pat, 0, s.clock, "failed"⟩
      · simp [drain, hpo]
    · intro cfg s0 e hdr
      have hne : ¬ ((workSet cfg s0.store).isEmpty = true) := by
        intro hemp
        rw [List.isEmpty_iff.mp hemp] at hdr
        simp [drain] at hdr
      unfold run
      rw [if_neg (by simpa [workSet] using hne)]
      rw [show (generate_date_patterns cfg.year cfg.month cfg.days cfg.hours).filter
        (fun p => !((get_processed_files s0.store).contains p)) = workSet cfg s0.store
        from rfl, hdr]

/-- C7 counterexample.  One partition whose load succeeds (appending 5 rows),
a store that is unavailable exactly at the first record call: the run does
NOT abort — it returns `.ok` with `new_files = 1` and rows total 0 — and the
progress store ends up holding a `failed` record with 0 rows for a partition
that was in fact loaded, i.e. the mid-run record failure was converted into a
per-partition failed record instead of being propagated. -/
theorem store_failure_counterexample :
    (fun n => decide (0 < n)) 0 = false ∧
    (run ⟨2025, 1, [1], [0]⟩ (fun _ => .ok ⟨5, 5⟩) (fun n => decide (0 < n))
        ⟨0, [], 0, 0, 0, []⟩).toOption.map (fun x => (x.1, x.2.store)) =
      some (⟨1, some 0, 5⟩,
        [⟨"2025/2025-01/pageviews-20250101-000000.gz", 0, 0, "failed"⟩]) :=
  ⟨rfl, rfl⟩

/-- C7 witness for the amended theorem: with a permanently unavailable store,
a failing load aborts the whole drain with the store error; and a store that
recovers after one failed write makes the loop record a successfully loaded
partition as failed and continue. -/
theorem store_failure_witness :
    drain (fun _ => .error "http 500") (fun _ => false) ⟨0, [], 0, 0, 0, []⟩
      ["a", "b"] = .error "StoreUnavailable" ∧
    (∃ s', processOne (fun _ => .ok ⟨5, 5⟩) (fun n => decide (0 < n))
        ⟨0, [], 0, 0, 0, []⟩ "a" = .ok s' ∧
      findRecord s'.store "a" = some ⟨"a", 0, 0, "failed"⟩ ∧
      drain (fun _ => .ok ⟨5, 5⟩) (fun n => decide (0 < n)) ⟨0, [], 0, 0, 0, []⟩
        ["a"] = drain (fun _ => .ok ⟨5, 5⟩) (fun n => decide (0 < n)) s' []) :=
  ⟨(store_failure_handling (fun _ => .error "http 500") (fun _ => false)
      ⟨0, [], 0, 0, 0, []⟩ "a" ["b"]).1 "http 500" rfl rfl,
   (store_failure_handling (fun _ => .ok ⟨5, 5⟩) (fun n => decide (0 < n))
      ⟨0, [], 0, 0, 0, []⟩ "a" []).2.2.1 ⟨5, 5⟩ rfl rfl rfl⟩

/-- C8 counterexample.  Month 13 is outside 1-12, yet `generate_date_patterns`
raises no error and happily formats it into the identifiers, and the run
proceeds: the out-of-range partition is attempted and a progress record is
written for it — contradicting "no partition is attempted and no progress
record is written". -/
theorem month_validation_counterexample :
    generate_date_patterns 2025 13 [1] [0] =
      ["2025/2025-13/pageviews-20251301-000000.gz"] ∧
    (run ⟨2025, 13, [1], [0]⟩ (fun _ => .error "404 not found") alwaysUp
        ⟨0, [], 0, 0, 0, []⟩).toOption.map (fun x => (x.2.attempts, x.2.store)) =
      some (["2025/2025-13/pageviews-20251301-000000.gz"],
            [⟨"2025/2025-13/pageviews-20251301-000000.gz", 0, 0, "failed"⟩]) :=
  ⟨rfl, rfl⟩

/-- C8 (amended).  The code validates nothing: for every month (in range or
not) the run returns normally under an available store, attempts exactly the
work set — whose identifiers simply embed the out-of-range month — and
records an outcome for each attempted partition.  There is no enumeration
error path. -/
theorem month_no_validation (year month : Int) (days hours : List Int)
    (engine : Engine) (s0 : S) :
    ∃ r s', run ⟨year, month, days, hours⟩ engine alwaysUp s0 = .ok (r, s') ∧
      s'.attempts = workSet ⟨year, month, days, hours⟩ s0.store ∧
      ∀ p ∈ workSet ⟨year, month, days, hours⟩ s0.store, ∃ t rec,
        findRecord s'.store p = some rec ∧ rec = ⟨p, expectedRows engine p, t,
          expectedStatus engine p⟩ := by
  rw [run_up]
  by_cases hws : (workSet ⟨year, month, days, hours⟩ s0.store).isEmpty
  · rw [if_pos hws]
    have hemp := List.isEmpty_iff.mp hws
    refine ⟨_, _, rfl, by simpa using hemp.symm, ?_⟩
    intro p hp
    rw [hemp] at hp
    simp at hp
  · rw [if_neg hws]
    refine ⟨_, _, rfl, ?_, ?_⟩
    · rw [drainPure_attempts]; simp
    · intro p hp
      rcases drainPure_find_mem engine { s0 with attempts := [], total := 0 }
        (workSet ⟨year, month, days, hours⟩ s0.store) p hp with ⟨t, hfind⟩
      exact ⟨t, _, hfind, rfl⟩

/-- C9 (confirmed).  Two-run idempotence: if every load of the first run's
work set succeeds ("no intervening data change", i.e. all partitions loadable
both times), the second run with the same configuration finds an empty work
set, attempts nothing (`new_files = 0`, empty attempt list) and skips every
considered partition, leaving the table and the store untouched. -/
theorem two_run_idempotence (cfg : Config) (engine : Engine) (s0 : S)
    (hnd : (keysOf s0.store).Nodup)
    (hok : ∀ p ∈ workSet cfg s0.store, engOk engine p = true) :
    ∃ r1 s1, run cfg engine alwaysUp s0 = .ok (r1, s1) ∧
      workSet cfg s1.store = [] ∧
      run cfg engine alwaysUp s1 =
        .ok ({ new_files := 0, rows_inserted := none, total_rows := s1.chRows },
             { s1 with attempts := [], total := 0 }) := by
  rw [run_up]
  by_cases hws : (workSet cfg s0.store).isEmpty
  · rw [if_pos hws]
    have hemp : workSet cfg s0.store = [] := List.isEmpty_iff.mp hws
    refine ⟨_, _, rfl, ?_, ?_⟩
    · exact hemp
    · rw [run_up, if_pos (by simpa [List.isEmpty_iff] using hemp)]
  · rw [if_neg hws]
    set s1 := drainPure engine { s0 with attempts := [], total := 0 }
      (workSet cfg s0.store) with hs1
    have hnd1 : (keysOf s1.store).Nodup :=
      drainPure_keys_nodup engine _ _ hnd
    have hemp2 : workSet cfg s1.store = [] := by
      rw [workSet, List.filter_eq_nil_iff]
      intro p hp
      simp only [Bool.not_eq_true', Bool.not_eq_false]
      rw [List.elem_iff]
      by_cases hpws : p ∈ workSet cfg s0.store
      · rcases drainPure_find_mem engine { s0 with attempts := [], total := 0 }
          (workSet cfg s0.store) p hpws with ⟨t, hfind⟩
        have hsucc : expectedStatus engine p = "success" := by
          have := hok p hpws
          unfold engOk at this
          unfold expectedStatus
          cases h : engine p <;> simp [h] at this ⊢
        exact (gpf_find_of_nodup _ p hnd1).2 ⟨_, hfind, by simp [hsucc]⟩
      · have hcont : p ∈ get_processed_files s0.store := by
          by_contra hnot
          exact hpws ((mem_workSet_iff cfg s0.store p).2 ⟨hp, hnot⟩)
        rcases (gpf_find_of_nodup _ p hnd).1 hcont with ⟨rec, hfind0, hsucc⟩
        have hfind1 : findRecord s1.store p = findRecord s0.store p :=
          drainPure_find_not_mem engine _ _ p hpws
        exact (gpf_find_of_nodup _ p hnd1).2 ⟨rec, by rw [hfind1]; exact hfind0, hsucc⟩
    refine ⟨_, _, rfl, hemp2, ?_⟩
    rw [run_up, if_pos (by simpa [List.isEmpty_iff] using hemp2)]

/-- C9 witness: one partition, empty store, loads succeed; the second run
attempts nothing. -/
theorem two_run_idempotence_witness :
    (keysOf ([] : List ProcessedRecord)).Nodup ∧
    (∀ p ∈ workSet ⟨2025, 1, [1], [0]⟩ [], engOk (fun _ => .ok ⟨7, 7⟩) p = true) ∧
    ∃ r1 s1, run ⟨2025, 1, [1], [0]⟩ (fun _ => .ok ⟨7, 7⟩) alwaysUp
        ⟨0, [], 0, 0, 0, []⟩ = .ok (r1, s1) ∧
      workSet ⟨2025, 1, [1], [0]⟩ s1.store = [] ∧
      run ⟨2025, 1, [1], [0]⟩ (fun _ => .ok ⟨7, 7⟩) alwaysUp s1 =
        .ok ({ new_files := 0, rows_inserted := none, total_rows := s1.chRows },
             { s1 with attempts := [], total := 0 }) :=
  ⟨by decide, by decide,
   two_run_idempotence ⟨2025, 1, [1], [0]⟩ (fun _ => .ok ⟨7, 7⟩)
     ⟨0, [], 0, 0, 0, []⟩ (by decide) (by decide)⟩

/-- C10 (confirmed).  Lazy reconnection at the warehouse-client interface:
`connect` creates a client only when none exists; each query operation's
resulting connection state is the connected one (they all call `connect`
first); a row-count query issued after `disconnect()` runs on a freshly
created client and returns the same result as before disconnecting (this is
what `run` relies on when it queries the total row count after
disconnecting); and `disconnect` on an already-disconnected manager is a
no-op. -/
theorem lazy_reconnect (srv : CHServer) (m : CHManager) (t q : String)
    (params : List (String × String)) :
    (∀ c, m.client = some c → connect m = (m, c)) ∧
    (m.client = none → (connect m).1.client = some m.nextId) ∧
    (get_table_row_count srv m t).1 = (connect m).1 ∧
    (execute_query srv m q params).1 = (connect m).1 ∧
    (table_exists srv m t).1 = (connect m).1 ∧
    (execute_sql_file srv m q params).1 = (connect m).1 ∧
    (disconnect m).client = none ∧
    ((get_table_row_count srv (disconnect m) t).1.client.isSome = true ∧
     (get_table_row_count srv (disconnect m) t).2 = (get_table_row_count srv m t).2) ∧
    disconnect (disconnect m) = disconnect m ∧
    (m.client = none → disconnect m = m) := by
  have hdn : (disconnect m).client = none := by
    unfold disconnect
    cases h : m.client <;> simp [h]
  have hrc : ∀ m' : CHManager, (get_table_row_count srv m' t).1 = (connect m').1 ∧
      (get_table_row_count srv m' t).2 =
        (match srv.exec ("SELECT count() FROM " ++ t) with
          | (x :: _) :: _ => (.ok x : Except String Int)
          | _ => .error "IndexError") := by
    intro m'
    unfold get_table_row_count
    rcases h : srv.exec ("SELECT count() FROM " ++ t) with _ | ⟨_ | ⟨x, xs⟩, rest⟩ <;>
      simp [h]
  refine ⟨?_, ?_, (hrc m).1, ?_, ?_, ?_, hdn, ⟨?_, ?_⟩, ?_, ?_⟩
  · intro c hc
    unfold connect
    rw [hc]
  · intro hc
    unfold connect
    rw [hc]
  · unfold execute_query
    rfl
  · unfold table_exists
    rcases h : srv.exec ("EXISTS TABLE " ++ t) with _ | ⟨_ | ⟨x, xs⟩, rest⟩ <;>
      simp [h]
  · unfold execute_sql_file
    rfl
  · rw [(hrc (disconnect m)).1]
    unfold connect
    rw [hdn]
    simp
  · rw [(hrc (disconnect m)).2, (hrc m).2]
  · unfold disconnect
    cases h : m.client <;> simp [h]
  · intro hc
    unfold disconnect
    rw [hc]

/-- C10 witness: a connected manager stays untouched by `connect`; after
`disconnect` a row-count query still succeeds (returning the server's count)
on a freshly created client; disconnecting twice equals disconnecting once. -/
theorem lazy_reconnect_witness :
    connect ⟨some 3, 7⟩ = (⟨some 3, 7⟩, 3) ∧
    (get_table_row_count ⟨fun _ => [[42]]⟩ (disconnect ⟨some 3, 7⟩) "wikistat").2 =
      (get_table_row_count ⟨fun _ => [[42]]⟩ ⟨some 3, 7⟩ "wikistat").2 ∧
    disconnect (disconnect ⟨some 3, 7⟩) = disconnect ⟨some 3, 7⟩ ∧
    disconnect ⟨none, 9⟩ = ⟨none, 9⟩ :=
  ⟨(lazy_reconnect ⟨fun _ => [[42]]⟩ ⟨some 3, 7⟩ "wikistat" "q" []).1 3 rfl,
   (lazy_reconnect ⟨fun _ => [[42]]⟩ ⟨some 3, 7⟩ "wikistat" "q" []).2.2.2.2.2.2.2.1.2,
   (lazy_reconnect ⟨fun _ => [[42]]⟩ ⟨some 3, 7⟩ "wikistat" "q" []).2.2.2.2.2.2.2.2.1,
   (lazy_reconnect ⟨fun _ => [[42]]⟩ ⟨none, 9⟩ "wikistat" "q" []).2.2.2.2.2.2.2.2.2 rfl⟩

end Wiki
